import Mathlib

/-!
Shallow embedding of `scan_signal.py` (CDC Action Zone crypto scanner).

The script builds a pandas DataFrame of OHLC candles per symbol, computes
`ewm(span=..., adjust=False).mean()` smoothings, boolean trend columns and
crossover signals, and reports the latest row.  Floats are modelled as exact
rationals; pandas `NaN` is an explicit `Cell.nan`; Python `None` is
`Cell.null`; raw Binance string fields are modelled by `Cell.numStr`
(a string that parses as a number) and `Cell.badStr` (one that does not),
since the only thing `astype(float)` does with a string is parse it or raise.
-/

set_option autoImplicit false

/-- A cell of a pandas column, as used by this script. -/
inductive Cell where
  | num (q : ℚ)
  | nan
  | null
  | bool (b : Bool)
  | numStr (q : ℚ)
  | badStr (s : String)
deriving DecidableEq, Repr

abbrev Col := List Cell

/-- The numeric content of a cell of a float column (`none` = NaN/missing). -/
def cellIsNum : Cell → Option ℚ
  | .num q => some q
  | _ => none

/-- `Series.astype(float)` on one cell: numbers and parseable strings convert,
`None` and `NaN` become `NaN`, bools become 0/1, a non-numeric string raises
`ValueError` (modelled as `Except.error ()`). -/
def astypeFloatCell : Cell → Except Unit Cell
  | .num q => .ok (.num q)
  | .nan => .ok .nan
  | .null => .ok .nan
  | .bool b => .ok (.num (if b then 1 else 0))
  | .numStr q => .ok (.num q)
  | .badStr _ => .error ()

/-- `Series.astype(float)` on a whole column. -/
def astypeFloatCol : Col → Except Unit Col
  | [] => .ok []
  | c :: cs =>
    match astypeFloatCell c, astypeFloatCol cs with
    | .ok c', .ok cs' => .ok (c' :: cs')
    | .error e, _ => .error e
    | _, .error e => .error e

/-- Float addition of two cells; NaN propagates (pandas `+` on float series). -/
def cellAdd : Cell → Cell → Cell
  | .num a, .num b => .num (a + b)
  | _, _ => .nan

/-- Float division of a cell by 4; NaN propagates. -/
def cellDiv4 : Cell → Cell
  | .num a => .num (a / 4)
  | _ => .nan

/-- Pandas `>` on float cells: any comparison involving NaN is `False`. -/
def cellGt : Cell → Cell → Cell
  | .num a, .num b => .bool (decide (b < a))
  | _, _ => .bool false

/-- Pandas `<` on float cells: any comparison involving NaN is `False`. -/
def cellLt : Cell → Cell → Cell
  | .num a, .num b => .bool (decide (a < b))
  | _, _ => .bool false

/-- Pandas `== True` on a cell (bool column cells compare directly, the float
1.0 equals `True`, everything else — including NaN — compares `False`). -/
def cellEqTrue : Cell → Cell
  | .bool b => .bool b
  | .num q => .bool (decide (q = 1))
  | _ => .bool false

/-- Pandas `== False` on a cell (NaN compares `False`, not an error). -/
def cellEqFalse : Cell → Cell
  | .bool b => .bool (!b)
  | .num q => .bool (decide (q = 0))
  | _ => .bool false

/-- Pandas `&` on two boolean cells. -/
def cellAnd : Cell → Cell → Cell
  | .bool a, .bool b => .bool (a && b)
  | _, _ => .nan

/-- Python truthiness of a cell value (`if latest_candle['Bullish']:`).
Note that `float('nan')` is truthy in Python. -/
def cellTruthy : Cell → Bool
  | .num q => decide (q ≠ 0)
  | .nan => true
  | .null => false
  | .bool b => b
  | .numStr _ => true
  | .badStr s => decide (s ≠ "")

/-- Element-wise addition of two columns (indexes align; same length here). -/
def colAdd (xs ys : Col) : Col := List.zipWith cellAdd xs ys

/-- `Series.shift(1)`: a NaN in front, last element dropped. -/
def shift1 : Col → Col
  | [] => []
  | c :: cs => Cell.nan :: (c :: cs).dropLast

/-- One step of the pandas `ewm(adjust=False, ignore_na=False).mean()`
aggregation.  The state is the current weighted average (`none` before the
first observation) together with the accumulated old weight.  On a valid
observation the old weight first decays by `1 - a`, then
`avg = (old_wt * avg + a * cur) / (old_wt + a)` and the old weight resets
to 1; on a NaN the old weight decays and the average is carried forward. -/
def ewmStep (a : ℚ) : Option ℚ × ℚ → Cell → (Option ℚ × ℚ) × Cell
  | (some w, owt), c =>
    match cellIsNum c with
    | some q =>
      let owt' := owt * (1 - a)
      let w' := (owt' * w + a * q) / (owt' + a)
      ((some w', 1), .num w')
    | none => ((some w, owt * (1 - a)), .num w)
  | (none, owt), c =>
    match cellIsNum c with
    | some q => ((some q, 1), .num q)
    | none => ((none, owt), .nan)

/-- The pandas EWM aggregation loop over a column. -/
def ewmGo (a : ℚ) : Option ℚ × ℚ → Col → Col
  | _, [] => []
  | st, c :: cs =>
    let sc := ewmStep a st c
    sc.2 :: ewmGo a sc.1 cs

/-- `Series.ewm(alpha=a, adjust=False).mean()`. -/
def ewmMean (a : ℚ) (xs : Col) : Col := ewmGo a (none, 1) xs

/-- `Series.ewm(span=s, adjust=False).mean()`: pandas converts the span to
`alpha = 2 / (span + 1)`. -/
def ewmMeanSpan (span : ℚ) (xs : Col) : Col := ewmMean (2 / (span + 1)) xs

/-- CDC Action Zone fast span (`PRD_1 = 12` in the script). -/
def PRD_1 : ℚ := 12

/-- CDC Action Zone slow span (`PRD_2 = 26` in the script). -/
def PRD_2 : ℚ := 26

/-- `df['src'] = (df['Open'] + df['High'] + df['Low'] + df['Close']) / 4`. -/
def srcCol (o h l c : Col) : Col :=
  (colAdd (colAdd (colAdd o h) l) c).map cellDiv4

/-- `df['Bullish'] = df['Fast_MA'] > df['Slow_MA']`. -/
def bullCol (fast slow : Col) : Col := List.zipWith cellGt fast slow

/-- `df['Bearish'] = df['Fast_MA'] < df['Slow_MA']`. -/
def bearCol (fast slow : Col) : Col := List.zipWith cellLt fast slow

/-- `df['Buy_Signal'] = (df['Bullish'] == True) & (df['Bullish'].shift(1) == False)`. -/
def buyCol (bull : Col) : Col :=
  List.zipWith cellAnd (bull.map cellEqTrue) ((shift1 bull).map cellEqFalse)

/-- `df['Sell_Signal'] = (df['Bearish'] == True) & (df['Bearish'].shift(1) == False)`. -/
def sellCol (bear : Col) : Col :=
  List.zipWith cellAnd (bear.map cellEqTrue) ((shift1 bear).map cellEqFalse)

/-- The DataFrame of the script: the four OHLC columns it reads, plus the
eight derived columns, each `none` until `calculate_cdc_action_zone`
assigns it (the remaining raw Binance columns are never read downstream). -/
structure Frame where
  Open : Col
  High : Col
  Low : Col
  Close : Col
  src : Option Col
  AP : Option Col
  Fast_MA : Option Col
  Slow_MA : Option Col
  Bullish : Option Col
  Bearish : Option Col
  Buy_Signal : Option Col
  Sell_Signal : Option Col
deriving DecidableEq, Repr

/-- The frame produced by `calculate_cdc_action_zone` from the coerced OHLC
columns.  In Python the column assignments mutate the caller's DataFrame in
place and `return df` returns that same object, so this is both the return
value and the post-call state of the argument. -/
def buildFrame (df : Frame) (o h l c : Col) : Frame :=
  let src := srcCol o h l c
  let ap := ewmMeanSpan 2 src
  let fast := ewmMeanSpan PRD_1 ap
  let slow := ewmMeanSpan PRD_2 ap
  let bull := bullCol fast slow
  let bear := bearCol fast slow
  { df with
      Open := o, High := h, Low := l, Close := c,
      src := some src, AP := some ap, Fast_MA := some fast, Slow_MA := some slow,
      Bullish := some bull, Bearish := some bear,
      Buy_Signal := some (buyCol bull), Sell_Signal := some (sellCol bear) }

/-- `calculate_cdc_action_zone(df)`: coerce the OHLC columns with
`astype(float)` (raising on a non-numeric string) and assign the derived
columns.  The result is the caller's mutated DataFrame. -/
def calculate_cdc_action_zone (df : Frame) : Except Unit Frame :=
  match astypeFloatCol df.Open, astypeFloatCol df.High,
        astypeFloatCol df.Low, astypeFloatCol df.Close with
  | .ok o, .ok h, .ok l, .ok c => .ok (buildFrame df o h l c)
  | .error e, _, _, _ => .error e
  | _, .error e, _, _ => .error e
  | _, _, .error e, _ => .error e
  | _, _, _, .error e => .error e

/-- One raw kline row, restricted to the four fields the script reads. -/
structure Kline where
  Open : Cell
  High : Cell
  Low : Cell
  Close : Cell
deriving DecidableEq, Repr

/-- `pd.DataFrame(klines, columns=columns)` restricted to the used columns. -/
def frameOfKlines (ks : List Kline) : Frame :=
  { Open := ks.map Kline.Open, High := ks.map Kline.High,
    Low := ks.map Kline.Low, Close := ks.map Kline.Close,
    src := none, AP := none, Fast_MA := none, Slow_MA := none,
    Bullish := none, Bearish := none, Buy_Signal := none, Sell_Signal := none }

/-- Element `i` of a column (total, with the convention that an
out-of-range read yields NaN; all in-range uses are within bounds). -/
def cellAt : Col → Nat → Cell
  | [], _ => .nan
  | c :: _, 0 => c
  | _ :: cs, i + 1 => cellAt cs i

/-- `df.iloc[-1][col]`: the last element of a (nonempty) column. -/
def lastCell (c : Col) : Cell := cellAt c (c.length - 1)

/-- The per-symbol result dictionary built by `get_symbol_status`. -/
structure SymbolResult where
  Symbol : String
  Status : String
  Signal : String
  Close : Cell
deriving DecidableEq, Repr

/-- `get_symbol_status(symbol)`, with the return value of
`get_klines_data` supplied as the `klines` argument (`none` models a failed
fetch).  `if not klines: return None` skips both a `None` and an empty list
before the indicator ever runs; otherwise the indicator computes and the
latest row is classified.  `Except.error` models an escaping exception. -/
def get_symbol_status (symbol : String) (klines : Option (List Kline)) :
    Except Unit (Option SymbolResult) :=
  match klines with
  | none => .ok none
  | some [] => .ok none
  | some (k :: ks) =>
    match calculate_cdc_action_zone (frameOfKlines (k :: ks)) with
    | .error e => .error e
    | .ok dfs =>
      let status_text :=
        if cellTruthy (lastCell (dfs.Bullish.getD [])) then "Up Trend"
        else "Down Trend"
      let signal_text :=
        if cellTruthy (lastCell (dfs.Buy_Signal.getD [])) then "Buy"
        else if cellTruthy (lastCell (dfs.Sell_Signal.getD [])) then "Sell"
        else "No Signal"
      .ok (some { Symbol := symbol, Status := status_text,
                  Signal := signal_text, Close := lastCell dfs.Close })

/-- The `__main__` loop: each symbol's step runs inside `try/except`, a
`None` status is dropped, and successful results accumulate in order. -/
def runPipeline (symbols : List String) (fetch : String → Option (List Kline)) :
    List SymbolResult :=
  symbols.foldl (fun acc sym =>
    match get_symbol_status sym (fetch sym) with
    | .error _ => acc
    | .ok none => acc
    | .ok (some r) => acc ++ [r]) []

/-- The textbook EMA recurrence, continuing from previous value `prev`:
each output is `a * x + (1 - a) * prev`. -/
def emaGo (a : ℚ) : ℚ → List ℚ → List ℚ
  | _, [] => []
  | prev, x :: xs =>
    let e := a * x + (1 - a) * prev
    e :: emaGo a e xs

/-- The exact recursive EMA of the spec: `ema[0] = series[0]`,
`ema[i] = a * series[i] + (1 - a) * ema[i - 1]`. -/
def emaSpec (a : ℚ) : List ℚ → List ℚ
  | [] => []
  | x :: xs => x :: emaGo a x xs

/-- A kline whose four OHLC fields are all Python `None`. -/
def nullKline : Kline := ⟨.null, .null, .null, .null⟩

/-- A flat candle with all four fields equal to 2 (so fast = slow). -/
def flatKline : Kline := ⟨.num 2, .num 2, .num 2, .num 2⟩

/-- A kline whose Open field is a non-numeric string. -/
def badOpenKline : Kline := ⟨.badStr "abc", .num 1, .num 1, .num 1⟩

/-- The Fast_MA column as computed from the coerced OHLC columns. -/
def fastOf (o h l c : Col) : Col :=
  ewmMeanSpan PRD_1 (ewmMeanSpan 2 (srcCol o h l c))

/-- The Slow_MA column as computed from the coerced OHLC columns. -/
def slowOf (o h l c : Col) : Col :=
  ewmMeanSpan PRD_2 (ewmMeanSpan 2 (srcCol o h l c))

/-- The input frame for a single ordinary candle (used to exhibit mutation). -/
def exDf9 : Frame := frameOfKlines [⟨.num 1, .num 2, .num 3, .num 4⟩]

/-- A fetch map where the middle symbol's data fetch fails. -/
def exFetch : String → Option (List Kline) := fun s =>
  if s = "SOLUSDT" then none else some [nullKline]

/-- The result the scanner reports for a single all-missing candle. -/
def exNullRes (s : String) : SymbolResult :=
  ⟨s, "Down Trend", "No Signal", .nan⟩

/-- The frame produced by the engine on `exDf9` (used as a mutation witness). -/
def exDf9' : Frame := buildFrame exDf9 [.num 1] [.num 2] [.num 3] [.num 4]

/-- The input frame for a single all-missing candle. -/
def exDfN : Frame := frameOfKlines [nullKline]

/-- The frame produced by the engine on `exDfN`. -/
def exDfN' : Frame := buildFrame exDfN [.nan] [.nan] [.nan] [.nan]

section Lemmas

/-! ### Basic structural lemmas -/

theorem astypeFloatCol_length :
    ∀ {xs ys : Col}, astypeFloatCol xs = .ok ys → ys.length = xs.length := by
  intro xs
  induction xs with
  | nil => intro ys hyp; simp [astypeFloatCol] at hyp; simp [hyp.symm]
  | cons c cs ih =>
    intro ys hyp
    simp only [astypeFloatCol] at hyp
    cases hc : astypeFloatCell c with
    | error e => rw [hc] at hyp; simp at hyp
    | ok c' =>
      cases hcs : astypeFloatCol cs with
      | error e => rw [hc, hcs] at hyp; simp at hyp
      | ok cs' =>
        rw [hc, hcs] at hyp
        simp only [Except.ok.injEq] at hyp
        subst hyp
        simp [ih hcs]

theorem ewmGo_length (a : ℚ) :
    ∀ (st : Option ℚ × ℚ) (xs : Col), (ewmGo a st xs).length = xs.length := by
  intro st xs
  induction xs generalizing st with
  | nil => rfl
  | cons c cs ih => simp [ewmGo, ih]

theorem ewmMeanSpan_length (s : ℚ) (xs : Col) :
    (ewmMeanSpan s xs).length = xs.length := by
  simp [ewmMeanSpan, ewmMean, ewmGo_length]

theorem shift1_length (xs : Col) : (shift1 xs).length = xs.length := by
  cases xs with
  | nil => rfl
  | cons c cs => simp [shift1]

theorem srcCol_length {o h l c : Col} {n : Nat}
    (ho : o.length = n) (hh : h.length = n) (hl : l.length = n) (hc : c.length = n) :
    (srcCol o h l c).length = n := by
  simp [srcCol, colAdd, ho, hh, hl, hc]

theorem cellAt_zipWith_lt (f : Cell → Cell → Cell) :
    ∀ (xs ys : Col) (i : Nat), i < xs.length → i < ys.length →
      cellAt (List.zipWith f xs ys) i = f (cellAt xs i) (cellAt ys i) := by
  intro xs
  induction xs with
  | nil => intro ys i hx _; simp at hx
  | cons x xs ih =>
    intro ys i hx hy
    cases ys with
    | nil => simp at hy
    | cons y ys =>
      cases i with
      | zero => rfl
      | succ j =>
        simp only [List.zipWith_cons_cons, cellAt]
        exact ih ys j (by simpa using hx) (by simpa using hy)

theorem cellAt_zipWith_cases (f : Cell → Cell → Cell) :
    ∀ (xs ys : Col) (i : Nat),
      cellAt (List.zipWith f xs ys) i = f (cellAt xs i) (cellAt ys i) ∨
      cellAt (List.zipWith f xs ys) i = Cell.nan := by
  intro xs
  induction xs with
  | nil => intro ys i; right; cases ys <;> cases i <;> rfl
  | cons x xs ih =>
    intro ys i
    cases ys with
    | nil => right; cases i <;> rfl
    | cons y ys =>
      cases i with
      | zero => left; rfl
      | succ j => exact ih ys j

theorem cellAt_map_lt (g : Cell → Cell) :
    ∀ (xs : Col) (i : Nat), i < xs.length →
      cellAt (xs.map g) i = g (cellAt xs i) := by
  intro xs
  induction xs with
  | nil => intro i hi; simp at hi
  | cons x xs ih =>
    intro i hi
    cases i with
    | zero => rfl
    | succ j => exact ih j (by simpa using hi)

theorem cellAt_map_cases (g : Cell → Cell) :
    ∀ (xs : Col) (i : Nat),
      cellAt (xs.map g) i = g (cellAt xs i) ∨ cellAt (xs.map g) i = Cell.nan := by
  intro xs
  induction xs with
  | nil => intro i; right; cases i <;> rfl
  | cons x xs ih =>
    intro i
    cases i with
    | zero => left; rfl
    | succ j => exact ih j

theorem lastCell_zipWith (f : Cell → Cell → Cell) (xs ys : Col)
    (hlen : xs.length = ys.length) (hx : xs ≠ []) :
    lastCell (List.zipWith f xs ys) = f (lastCell xs) (lastCell ys) := by
  have hpos : 0 < xs.length := List.length_pos.mpr hx
  have hzl : (List.zipWith f xs ys).length = xs.length := by
    simp [List.length_zipWith, hlen.symm]
  unfold lastCell
  rw [hzl, hlen.symm]
  exact cellAt_zipWith_lt f xs ys (xs.length - 1)
    (Nat.sub_lt hpos Nat.one_pos) (hlen ▸ Nat.sub_lt hpos Nat.one_pos)

/-! ### Shape lemmas for the cell operations -/

theorem cellGt_isBool (x y : Cell) : ∃ b, cellGt x y = .bool b := by
  cases x <;> cases y <;> simp [cellGt]

theorem cellLt_isBool (x y : Cell) : ∃ b, cellLt x y = .bool b := by
  cases x <;> cases y <;> simp [cellLt]

theorem cellEqTrue_isBool (x : Cell) : ∃ b, cellEqTrue x = .bool b := by
  cases x <;> simp [cellEqTrue]

theorem cellEqFalse_isBool (x : Cell) : ∃ b, cellEqFalse x = .bool b := by
  cases x <;> simp [cellEqFalse]

theorem cellGt_true_elim {x y : Cell} (hyp : cellGt x y = .bool true) :
    ∃ a b : ℚ, x = .num a ∧ y = .num b ∧ b < a := by
  cases x <;> cases y <;> simp_all [cellGt]

theorem cellLt_true_elim {x y : Cell} (hyp : cellLt x y = .bool true) :
    ∃ a b : ℚ, x = .num a ∧ y = .num b ∧ a < b := by
  cases x <;> cases y <;> simp_all [cellLt]

theorem cellAnd_true_elim {x y : Cell} (hyp : cellAnd x y = .bool true) :
    x = .bool true ∧ y = .bool true := by
  cases x <;> cases y <;> simp_all [cellAnd]

theorem cellGt_truthy_iff (x y : Cell) :
    cellTruthy (cellGt x y) = true ↔
      ∃ a b : ℚ, x = .num a ∧ y = .num b ∧ b < a := by
  cases x <;> cases y <;> simp [cellGt, cellTruthy]

/-! ### Elimination lemmas for the engine and the per-symbol step -/

theorem calc_ok_elim {df df' : Frame}
    (h0 : calculate_cdc_action_zone df = .ok df') :
    ∃ o h l c, astypeFloatCol df.Open = .ok o ∧ astypeFloatCol df.High = .ok h ∧
      astypeFloatCol df.Low = .ok l ∧ astypeFloatCol df.Close = .ok c ∧
      df' = buildFrame df o h l c := by
  unfold calculate_cdc_action_zone at h0
  cases ho : astypeFloatCol df.Open with
  | error e => rw [ho] at h0; simp at h0
  | ok o =>
    cases hh : astypeFloatCol df.High with
    | error e => rw [ho, hh] at h0; simp at h0
    | ok h =>
      cases hl : astypeFloatCol df.Low with
      | error e => rw [ho, hh, hl] at h0; simp at h0
      | ok l =>
        cases hc : astypeFloatCol df.Close with
        | error e => rw [ho, hh, hl, hc] at h0; simp at h0
        | ok c =>
          rw [ho, hh, hl, hc] at h0
          simp only [Except.ok.injEq] at h0
          exact ⟨o, h, l, c, rfl, rfl, rfl, rfl, h0.symm⟩

theorem gss_ok_elim {s : String} {ks : List Kline} {r : SymbolResult}
    (h0 : get_symbol_status s (some ks) = .ok (some r)) :
    ks ≠ [] ∧ ∃ dfs, calculate_cdc_action_zone (frameOfKlines ks) = .ok dfs ∧
      r = { Symbol := s,
            Status := if cellTruthy (lastCell (dfs.Bullish.getD []))
                      then "Up Trend" else "Down Trend",
            Signal := if cellTruthy (lastCell (dfs.Buy_Signal.getD [])) then "Buy"
                      else if cellTruthy (lastCell (dfs.Sell_Signal.getD []))
                      then "Sell" else "No Signal",
            Close := lastCell dfs.Close } := by
  cases ks with
  | nil => simp [get_symbol_status] at h0
  | cons k ks =>
    refine ⟨by simp, ?_⟩
    cases hc : calculate_cdc_action_zone (frameOfKlines (k :: ks)) with
    | error e => simp [get_symbol_status, hc] at h0
    | ok dfs =>
      simp only [get_symbol_status, hc, Except.ok.injEq, Option.some.injEq] at h0
      exact ⟨dfs, rfl, h0.symm⟩

/-! ### Replicate lemmas (all-missing input) -/

theorem astypeFloatCol_null (n : Nat) :
    astypeFloatCol (List.replicate n Cell.null) = .ok (List.replicate n Cell.nan) := by
  induction n with
  | zero => rfl
  | succ m ih => simp [List.replicate_succ, astypeFloatCol, astypeFloatCell, ih]

theorem zipWith_cell_replicate (f : Cell → Cell → Cell) (n : Nat) (a b : Cell) :
    List.zipWith f (List.replicate n a) (List.replicate n b) =
      List.replicate n (f a b) := by
  induction n with
  | zero => rfl
  | succ m ih => simp [List.replicate_succ, ih]

theorem srcCol_null (n : Nat) :
    srcCol (List.replicate n Cell.nan) (List.replicate n Cell.nan)
      (List.replicate n Cell.nan) (List.replicate n Cell.nan) =
      List.replicate n Cell.nan := by
  simp [srcCol, colAdd, zipWith_cell_replicate, cellAdd, List.map_replicate, cellDiv4]

theorem ewmGo_nan (a : ℚ) (n : Nat) :
    ∀ w : ℚ, ewmGo a (none, w) (List.replicate n Cell.nan) =
      List.replicate n Cell.nan := by
  induction n with
  | zero => intro w; rfl
  | succ m ih =>
    intro w
    simp [List.replicate_succ, ewmGo, ewmStep, cellIsNum, ih]

theorem ewmMeanSpan_nan (s : ℚ) (n : Nat) :
    ewmMeanSpan s (List.replicate n Cell.nan) = List.replicate n Cell.nan := by
  simp [ewmMeanSpan, ewmMean, ewmGo_nan]

theorem dropLast_replicate (n : Nat) (a : Cell) :
    (List.replicate (n + 1) a).dropLast = List.replicate n a := by
  rw [List.replicate_succ' n a, List.dropLast_concat]

theorem buyCol_false (n : Nat) :
    buyCol (List.replicate n (Cell.bool false)) =
      List.replicate n (Cell.bool false) := by
  cases n with
  | zero => rfl
  | succ m =>
    simp only [buyCol, shift1]
    rw [show List.replicate (m + 1) (Cell.bool false) =
          Cell.bool false :: List.replicate m (Cell.bool false) from rfl]
    simp only [List.dropLast]
    rw [show (Cell.bool false :: List.replicate m (Cell.bool false)).dropLast =
          List.replicate m (Cell.bool false) from dropLast_replicate m _]
    simp [List.map_replicate, cellEqTrue, cellEqFalse,
      zipWith_cell_replicate, cellAnd, List.replicate_succ]

theorem sellCol_eq_buyCol (xs : Col) : sellCol xs = buyCol xs := rfl

theorem lastCell_replicate (n : Nat) (a : Cell) (hn : n ≠ 0) :
    lastCell (List.replicate n a) = a := by
  cases n with
  | zero => exact absurd rfl hn
  | succ m =>
    unfold lastCell
    simp only [List.length_replicate, Nat.add_sub_cancel]
    induction m with
    | zero => rfl
    | succ p ih => simpa [List.replicate_succ, cellAt] using ih

/-! ### EMA recurrence on all-valid series -/

theorem ewmGo_map_num (a : ℚ) :
    ∀ (qs : List ℚ) (w : ℚ),
      ewmGo a (some w, 1) (qs.map Cell.num) = (emaGo a w qs).map Cell.num := by
  intro qs
  induction qs with
  | nil => intro w; rfl
  | cons q qs ih =>
    intro w
    have hw : (1 * (1 - a) * w + a * q) / (1 * (1 - a) + a) = a * q + (1 - a) * w := by
      have h1 : 1 * (1 - a) + a = 1 := by ring
      have h2 : 1 * (1 - a) * w + a * q = a * q + (1 - a) * w := by ring
      rw [h1, h2, div_one]
    simp only [List.map_cons, ewmGo, ewmStep, cellIsNum, emaGo]
    rw [hw]
    exact congrArg _ (ih (a * q + (1 - a) * w))

theorem ewmMean_map_num (a : ℚ) (qs : List ℚ) :
    ewmMean a (qs.map Cell.num) = (emaSpec a qs).map Cell.num := by
  cases qs with
  | nil => rfl
  | cons q qs =>
    simp only [List.map_cons, ewmMean, ewmGo, ewmStep, cellIsNum, emaSpec]
    exact congrArg _ (ewmGo_map_num a qs q)

/-! ### Projections of the computed frame -/

theorem buildFrame_Bullish (df : Frame) (o h l c : Col) :
    (buildFrame df o h l c).Bullish =
      some (bullCol (fastOf o h l c) (slowOf o h l c)) := rfl

theorem buildFrame_Bearish (df : Frame) (o h l c : Col) :
    (buildFrame df o h l c).Bearish =
      some (bearCol (fastOf o h l c) (slowOf o h l c)) := rfl

theorem buildFrame_Buy (df : Frame) (o h l c : Col) :
    (buildFrame df o h l c).Buy_Signal =
      some (buyCol (bullCol (fastOf o h l c) (slowOf o h l c))) := rfl

theorem buildFrame_Sell (df : Frame) (o h l c : Col) :
    (buildFrame df o h l c).Sell_Signal =
      some (sellCol (bearCol (fastOf o h l c) (slowOf o h l c))) := rfl

theorem buildFrame_Fast (df : Frame) (o h l c : Col) :
    (buildFrame df o h l c).Fast_MA = some (fastOf o h l c) := rfl

theorem buildFrame_Slow (df : Frame) (o h l c : Col) :
    (buildFrame df o h l c).Slow_MA = some (slowOf o h l c) := rfl

theorem fastOf_length {o h l c : Col} {n : Nat}
    (ho : o.length = n) (hh : h.length = n) (hl : l.length = n) (hc : c.length = n) :
    (fastOf o h l c).length = n := by
  simp [fastOf, ewmMeanSpan_length, srcCol_length ho hh hl hc]

theorem slowOf_length {o h l c : Col} {n : Nat}
    (ho : o.length = n) (hh : h.length = n) (hl : l.length = n) (hc : c.length = n) :
    (slowOf o h l c).length = n := by
  simp [slowOf, ewmMeanSpan_length, srcCol_length ho hh hl hc]

/-! ### Pointwise structure of the signal columns -/

theorem sig_at_true {f : Cell → Cell → Cell} (hf : ∀ x y, ∃ b, f x y = .bool b)
    {u v : Col} {i : Nat}
    (hyp : cellAt (buyCol (List.zipWith f u v)) i = .bool true) :
    f (cellAt u i) (cellAt v i) = .bool true := by
  rcases cellAt_zipWith_cases cellAnd ((List.zipWith f u v).map cellEqTrue)
      ((shift1 (List.zipWith f u v)).map cellEqFalse) i with hz | hz
  · rw [buyCol, hz] at hyp
    obtain ⟨ht, _⟩ := cellAnd_true_elim hyp
    rcases cellAt_map_cases cellEqTrue (List.zipWith f u v) i with hm | hm
    · rw [hm] at ht
      rcases cellAt_zipWith_cases f u v i with hw | hw
      · rw [hw] at ht
        obtain ⟨b, hb⟩ := hf (cellAt u i) (cellAt v i)
        rw [hb] at ht
        simp only [cellEqTrue, Cell.bool.injEq] at ht
        rw [hb, ht]
      · rw [hw] at ht; simp [cellEqTrue] at ht
    · rw [hm] at ht; exact absurd ht (by simp)
  · rw [buyCol, hz] at hyp; exact absurd hyp (by simp)

theorem buy_last_eqTrue {x : Col} (hx : x ≠ [])
    (hyp : cellTruthy (lastCell (buyCol x)) = true) :
    cellEqTrue (lastCell x) = .bool true := by
  have hpos : 0 < x.length := List.length_pos.mpr hx
  have hi : x.length - 1 < x.length := Nat.sub_lt hpos Nat.one_pos
  have hlenA : (x.map cellEqTrue).length = x.length := by simp
  have hlenB : ((shift1 x).map cellEqFalse).length = x.length := by
    simp [shift1_length]
  have hlenBuy : (buyCol x).length = x.length := by
    simp [buyCol, List.length_zipWith, shift1_length]
  have hlast : lastCell (buyCol x) =
      cellAnd (cellAt (x.map cellEqTrue) (x.length - 1))
        (cellAt ((shift1 x).map cellEqFalse) (x.length - 1)) := by
    unfold lastCell
    rw [hlenBuy]
    exact cellAt_zipWith_lt cellAnd _ _ _ (hlenA ▸ hi) (hlenB ▸ hi)
  rw [hlast, cellAt_map_lt cellEqTrue x _ hi,
    cellAt_map_lt cellEqFalse (shift1 x) _ ((shift1_length x) ▸ hi)] at hyp
  obtain ⟨a, ha⟩ := cellEqTrue_isBool (cellAt x (x.length - 1))
  obtain ⟨b, hb⟩ := cellEqFalse_isBool (cellAt (shift1 x) (x.length - 1))
  rw [ha, hb] at hyp
  simp only [cellAnd, cellTruthy, Bool.and_eq_true] at hyp
  unfold lastCell
  rw [ha, hyp.1]

theorem sig_last_true {f : Cell → Cell → Cell} (hf : ∀ x y, ∃ b, f x y = .bool b)
    {u v : Col} (hlen : u.length = v.length) (hu : u ≠ [])
    (hyp : cellTruthy (lastCell (buyCol (List.zipWith f u v))) = true) :
    f (lastCell u) (lastCell v) = .bool true := by
  have hzne : List.zipWith f u v ≠ [] := by
    have : (List.zipWith f u v).length = u.length := by
      simp [List.length_zipWith, hlen.symm]
    intro hcon
    rw [hcon] at this
    exact absurd (List.length_eq_zero.mp this.symm) hu
  have ht := buy_last_eqTrue hzne hyp
  rw [lastCell_zipWith f u v hlen hu] at ht
  obtain ⟨b, hb⟩ := hf (lastCell u) (lastCell v)
  rw [hb] at ht
  simp only [cellEqTrue, Cell.bool.injEq] at ht
  rw [hb, ht]

theorem buyCol_at_zero {x : Col} (hx : x ≠ []) :
    cellAt (buyCol x) 0 = .bool false := by
  cases x with
  | nil => exact absurd rfl hx
  | cons c cs =>
    obtain ⟨a, ha⟩ := cellEqTrue_isBool c
    simp [buyCol, shift1, ha, cellEqFalse, cellAnd, cellAt]

/-! ### The all-missing run -/

theorem calc_null_frame (n : Nat) :
    calculate_cdc_action_zone (frameOfKlines (List.replicate n nullKline)) =
      .ok (buildFrame (frameOfKlines (List.replicate n nullKline))
        (List.replicate n Cell.nan) (List.replicate n Cell.nan)
        (List.replicate n Cell.nan) (List.replicate n Cell.nan)) := by
  have hmap : ∀ g : Kline → Cell, g nullKline = Cell.null →
      (List.replicate n nullKline).map g = List.replicate n Cell.null := by
    intro g hg
    rw [List.map_replicate, hg]
  unfold calculate_cdc_action_zone frameOfKlines
  simp only [hmap Kline.Open rfl, hmap Kline.High rfl, hmap Kline.Low rfl,
    hmap Kline.Close rfl, astypeFloatCol_null]

theorem buildFrame_null_Bullish (df : Frame) (n : Nat) :
    (buildFrame df (List.replicate n Cell.nan) (List.replicate n Cell.nan)
      (List.replicate n Cell.nan) (List.replicate n Cell.nan)).Bullish =
      some (List.replicate n (Cell.bool false)) := by
  rw [buildFrame_Bullish]
  simp [fastOf, slowOf, srcCol_null, ewmMeanSpan_nan, bullCol,
    zipWith_cell_replicate, cellGt]

theorem buildFrame_null_Buy (df : Frame) (n : Nat) :
    (buildFrame df (List.replicate n Cell.nan) (List.replicate n Cell.nan)
      (List.replicate n Cell.nan) (List.replicate n Cell.nan)).Buy_Signal =
      some (List.replicate n (Cell.bool false)) := by
  rw [buildFrame_Buy]
  simp [fastOf, slowOf, srcCol_null, ewmMeanSpan_nan, bullCol,
    zipWith_cell_replicate, cellGt, buyCol_false]

theorem buildFrame_null_Sell (df : Frame) (n : Nat) :
    (buildFrame df (List.replicate n Cell.nan) (List.replicate n Cell.nan)
      (List.replicate n Cell.nan) (List.replicate n Cell.nan)).Sell_Signal =
      some (List.replicate n (Cell.bool false)) := by
  rw [buildFrame_Sell]
  rw [show bearCol (fastOf (List.replicate n Cell.nan) (List.replicate n Cell.nan)
        (List.replicate n Cell.nan) (List.replicate n Cell.nan))
      (slowOf (List.replicate n Cell.nan) (List.replicate n Cell.nan)
        (List.replicate n Cell.nan) (List.replicate n Cell.nan)) =
      List.replicate n (Cell.bool false) by
    simp [fastOf, slowOf, srcCol_null, ewmMeanSpan_nan, bearCol,
      zipWith_cell_replicate, cellLt]]
  rw [sellCol_eq_buyCol, buyCol_false]

theorem gss_replicate_null (s : String) (m : Nat) :
    get_symbol_status s (some (List.replicate (m + 1) nullKline)) =
      .ok (some ⟨s, "Down Trend", "No Signal", Cell.nan⟩) := by
  have hcons : List.replicate (m + 1) nullKline =
      nullKline :: List.replicate m nullKline := List.replicate_succ nullKline m
  rw [hcons]
  have hcalc := calc_null_frame (m + 1)
  rw [hcons] at hcalc
  simp only [get_symbol_status, hcalc]
  rw [← hcons]
  rw [buildFrame_null_Bullish, buildFrame_null_Buy, buildFrame_null_Sell]
  have hlastf : lastCell (List.replicate (m + 1) (Cell.bool false)) =
      Cell.bool false := lastCell_replicate (m + 1) _ (Nat.succ_ne_zero m)
  have hclose : (buildFrame (frameOfKlines (List.replicate (m + 1) nullKline))
      (List.replicate (m + 1) Cell.nan) (List.replicate (m + 1) Cell.nan)
      (List.replicate (m + 1) Cell.nan) (List.replicate (m + 1) Cell.nan)).Close =
      List.replicate (m + 1) Cell.nan := rfl
  rw [hclose]
  simp only [Option.getD_some, hlastf, cellTruthy,
    lastCell_replicate (m + 1) Cell.nan (Nat.succ_ne_zero m)]
  rfl

end Lemmas

/-! ## Claims -/

/-- Claim C10: a successful fetch with zero candles is treated exactly like a
failed fetch — the per-symbol step returns no result and skips the
instrument before the indicator computation ever runs, with no error. -/
theorem C10_empty_fetch_like_failed (s : String) :
    get_symbol_status s (some []) = .ok none ∧
    get_symbol_status s none = .ok none ∧
    get_symbol_status s (some []) = get_symbol_status s none :=
  ⟨rfl, rfl, rfl⟩

/-- Claim C2 (counterexample): a candle whose Open field is the non-numeric
string "abc" makes `astype(float)` raise, so the engine propagates an
exception instead of producing a missing value — refuting the claim that a
failed coercion never raises. -/
theorem C2_counterexample :
    get_symbol_status "BTCUSDT" (some [badOpenKline]) = .error () := rfl

/-- Claim C2 (amended): a `None`/NaN OHLC value becomes NaN without error and
propagates through the arithmetic, and every comparison involving NaN yields
false; but a non-numeric string makes the coercion raise (the exception is
contained by the per-symbol loop, not turned into a missing value). -/
theorem C2_missing_value_propagation :
    astypeFloatCell Cell.null = .ok Cell.nan ∧
    astypeFloatCell Cell.nan = .ok Cell.nan ∧
    (∀ c, cellAdd Cell.nan c = Cell.nan ∧ cellAdd c Cell.nan = Cell.nan) ∧
    cellDiv4 Cell.nan = Cell.nan ∧
    (∀ c, cellGt Cell.nan c = .bool false ∧ cellGt c Cell.nan = .bool false ∧
      cellLt Cell.nan c = .bool false ∧ cellLt c Cell.nan = .bool false) ∧
    cellEqTrue Cell.nan = .bool false ∧ cellEqFalse Cell.nan = .bool false ∧
    (∀ str : String, astypeFloatCell (Cell.badStr str) = .error ()) := by
  refine ⟨rfl, rfl, ?_, rfl, ?_, rfl, rfl, fun str => rfl⟩
  · intro c; exact ⟨by cases c <;> rfl, by cases c <;> rfl⟩
  · intro c
    exact ⟨by cases c <;> rfl, by cases c <;> rfl, by cases c <;> rfl,
      by cases c <;> rfl⟩

/-- Claim C9 (counterexample): on a one-candle frame, the engine returns the
caller's DataFrame object with its columns changed (coerced OHLC plus eight
new derived columns), not an unchanged input — the very call mutates the
frame the caller passed in. -/
theorem C9_counterexample :
    calculate_cdc_action_zone exDf9 = .ok exDf9' ∧ exDf9' ≠ exDf9 := by
  refine ⟨rfl, fun hyp => ?_⟩
  have hsrc := congrArg Frame.src hyp
  simp [exDf9', exDf9, buildFrame, frameOfKlines] at hsrc

/-- Claim C9 (amended): the indicator computation mutates its input frame in
place — on success the returned object (the caller's frame) always carries
all eight derived columns, so an input frame without a `src` column is
necessarily changed by the call. -/
theorem C9_mutates_input (df df' : Frame)
    (h0 : calculate_cdc_action_zone df = .ok df') :
    df'.src.isSome ∧ df'.AP.isSome ∧ df'.Fast_MA.isSome ∧ df'.Slow_MA.isSome ∧
    df'.Bullish.isSome ∧ df'.Bearish.isSome ∧
    df'.Buy_Signal.isSome ∧ df'.Sell_Signal.isSome ∧
    (df.src = none → df' ≠ df) := by
  obtain ⟨o, h, l, c, _, _, _, _, hdf⟩ := calc_ok_elim h0
  subst hdf
  refine ⟨rfl, rfl, rfl, rfl, rfl, rfl, rfl, rfl, fun hnone heq => ?_⟩
  have hsrc := congrArg Frame.src heq
  rw [hnone] at hsrc
  simp [buildFrame] at hsrc

/-- Witness for C9_mutates_input at a concrete one-candle frame. -/
theorem C9_witness :
    exDf9'.src.isSome ∧ exDf9'.AP.isSome ∧ exDf9'.Fast_MA.isSome ∧
    exDf9'.Slow_MA.isSome ∧ exDf9'.Bullish.isSome ∧ exDf9'.Bearish.isSome ∧
    exDf9'.Buy_Signal.isSome ∧ exDf9'.Sell_Signal.isSome ∧
    (exDf9.src = none → exDf9' ≠ exDf9) :=
  C9_mutates_input exDf9 exDf9' rfl

/-- Claim C5: at no index can Buy_Signal and Sell_Signal both be true, since
bullish (fast > slow) and bearish (fast < slow) are mutually exclusive. -/
theorem C5_buy_sell_mutually_exclusive (df df' : Frame)
    (h0 : calculate_cdc_action_zone df = .ok df') (i : Nat) :
    ¬(cellAt (df'.Buy_Signal.getD []) i = Cell.bool true ∧
      cellAt (df'.Sell_Signal.getD []) i = Cell.bool true) := by
  rintro ⟨hb, hs⟩
  obtain ⟨o, h, l, c, _, _, _, _, hdf⟩ := calc_ok_elim h0
  subst hdf
  rw [buildFrame_Buy, Option.getD_some] at hb
  rw [buildFrame_Sell, Option.getD_some, sellCol_eq_buyCol] at hs
  have h1 : cellGt (cellAt (fastOf o h l c) i) (cellAt (slowOf o h l c) i) =
      .bool true := sig_at_true cellGt_isBool hb
  have h2 : cellLt (cellAt (fastOf o h l c) i) (cellAt (slowOf o h l c) i) =
      .bool true := sig_at_true cellLt_isBool hs
  obtain ⟨a, b, hfa, hsb, hba⟩ := cellGt_true_elim h1
  obtain ⟨a2, b2, hfa2, hsb2, hab⟩ := cellLt_true_elim h2
  rw [hfa] at hfa2
  rw [hsb] at hsb2
  injection hfa2 with ea
  injection hsb2 with eb
  subst ea
  subst eb
  exact absurd hab (not_lt.mpr (le_of_lt hba))

/-- Witness for C5_buy_sell_mutually_exclusive at a concrete frame. -/
theorem C5_witness :
    ¬(cellAt (exDf9'.Buy_Signal.getD []) 0 = Cell.bool true ∧
      cellAt (exDf9'.Sell_Signal.getD []) 0 = Cell.bool true) :=
  C5_buy_sell_mutually_exclusive exDf9 exDf9' rfl 0

/-- Claim C7: index 0 has no prior value, so for every nonempty candle
sequence both signals are false at index 0 regardless of the data. -/
theorem C7_index_zero_never_signals (ks : List Kline) (df' : Frame)
    (hne : ks ≠ []) (h0 : calculate_cdc_action_zone (frameOfKlines ks) = .ok df') :
    cellAt (df'.Buy_Signal.getD []) 0 = Cell.bool false ∧
    cellAt (df'.Sell_Signal.getD []) 0 = Cell.bool false := by
  obtain ⟨o, h, l, c, ho, hh, hl, hcc, hdf⟩ := calc_ok_elim h0
  subst hdf
  have hno : o.length = ks.length := by
    simpa [frameOfKlines] using astypeFloatCol_length ho
  have hnh : h.length = ks.length := by
    simpa [frameOfKlines] using astypeFloatCol_length hh
  have hnl : l.length = ks.length := by
    simpa [frameOfKlines] using astypeFloatCol_length hl
  have hnc : c.length = ks.length := by
    simpa [frameOfKlines] using astypeFloatCol_length hcc
  have hF : (fastOf o h l c).length = ks.length := fastOf_length hno hnh hnl hnc
  have hS : (slowOf o h l c).length = ks.length := slowOf_length hno hnh hnl hnc
  have hbull_len : (bullCol (fastOf o h l c) (slowOf o h l c)).length = ks.length := by
    simp [bullCol, List.length_zipWith, hF, hS]
  have hbear_len : (bearCol (fastOf o h l c) (slowOf o h l c)).length = ks.length := by
    simp [bearCol, List.length_zipWith, hF, hS]
  have hbull_ne : bullCol (fastOf o h l c) (slowOf o h l c) ≠ [] := by
    intro hcon
    rw [hcon] at hbull_len
    exact hne (List.length_eq_zero.mp hbull_len.symm)
  have hbear_ne : bearCol (fastOf o h l c) (slowOf o h l c) ≠ [] := by
    intro hcon
    rw [hcon] at hbear_len
    exact hne (List.length_eq_zero.mp hbear_len.symm)
  rw [buildFrame_Buy, buildFrame_Sell, Option.getD_some, Option.getD_some,
    sellCol_eq_buyCol]
  exact ⟨buyCol_at_zero hbull_ne, buyCol_at_zero hbear_ne⟩

/-- Witness for C7_index_zero_never_signals at a concrete one-candle input. -/
theorem C7_witness :
    cellAt (exDfN'.Buy_Signal.getD []) 0 = Cell.bool false ∧
    cellAt (exDfN'.Sell_Signal.getD []) 0 = Cell.bool false :=
  C7_index_zero_never_signals [nullKline] exDfN' (by simp) rfl

/-- Claim C4 (counterexample): with every OHLC value missing after coercion,
the run does not error and the signal resolves to none, but the latest trend
label is "Down Trend", not a Neutral state — there is no Neutral label in the
code, refuting the claim that all-missing data yields Neutral. -/
theorem C4_counterexample :
    get_symbol_status "BTCUSDT" (some [nullKline, nullKline]) =
      .ok (some ⟨"BTCUSDT", "Down Trend", "No Signal", Cell.nan⟩) ∧
    "Down Trend" ≠ "Neutral" := ⟨rfl, by decide⟩

/-- Claim C4 (amended): if every OHLC value of every candle is missing after
coercion, the engine raises no error, the signal resolves to "No Signal",
and the trend label resolves to "Down Trend" (the else-branch: there is no
Neutral state; NaN comparisons are all false, so Bullish is false). -/
theorem C4_all_missing_down_trend (s : String) (ks : List Kline)
    (hne : ks ≠ []) (hall : ∀ k ∈ ks, k = nullKline) :
    get_symbol_status s (some ks) =
      .ok (some ⟨s, "Down Trend", "No Signal", Cell.nan⟩) := by
  have hrep : ks = List.replicate ks.length nullKline :=
    List.eq_replicate_of_mem hall
  obtain ⟨m, hm⟩ : ∃ m, ks.length = m + 1 := by
    cases hk : ks.length with
    | zero => exact absurd (List.length_eq_zero.mp hk) hne
    | succ m => exact ⟨m, rfl⟩
  rw [hrep, hm]
  exact gss_replicate_null s m

/-- Witness for C4_all_missing_down_trend at a concrete one-candle input. -/
theorem C4_witness :
    get_symbol_status "ETHUSDT" (some [nullKline]) =
      .ok (some ⟨"ETHUSDT", "Down Trend", "No Signal", Cell.nan⟩) :=
  C4_all_missing_down_trend "ETHUSDT" [nullKline] (by simp) (by simp)

/-- Claim C8: in a run over [A, B, C] where B's fetch fails and A and C
succeed, the pipeline still records A's and C's results in that relative
order; the failure is absorbed by the per-symbol step, never aborting the
run. -/
theorem C8_failed_fetch_skipped (A B C : String)
    (fetch : String → Option (List Kline)) (rA rC : SymbolResult)
    (hB : fetch B = none)
    (hA : get_symbol_status A (fetch A) = .ok (some rA))
    (hC : get_symbol_status C (fetch C) = .ok (some rC)) :
    runPipeline [A, B, C] fetch = [rA, rC] := by
  have hBnone : get_symbol_status B (fetch B) = .ok none := by rw [hB]; rfl
  simp [runPipeline, hA, hBnone, hC]

/-- Witness for C8_failed_fetch_skipped with a concrete fetch map whose
middle symbol fails. -/
theorem C8_witness :
    runPipeline ["BTCUSDT", "SOLUSDT", "ETHUSDT"] exFetch =
      [exNullRes "BTCUSDT", exNullRes "ETHUSDT"] :=
  C8_failed_fetch_skipped "BTCUSDT" "SOLUSDT" "ETHUSDT" exFetch
    (exNullRes "BTCUSDT") (exNullRes "ETHUSDT") rfl rfl rfl

/-- Claim C3: the smoothing used for AP, Fast_MA and Slow_MA is the exact
recursive EMA with `ema[0] = series[0]`, `ema[i] = a*series[i] +
(1-a)*ema[i-1]`, `a = 2/(span+1)`; in particular series [10,20,30] with
span 2 gives [10, 50/3, 230/9]. -/
theorem C3_ema_exact_recurrence (span : ℚ) (hspan : 0 < span) :
    (∀ qs : List ℚ, ewmMeanSpan span (qs.map Cell.num) =
      (emaSpec (2 / (span + 1)) qs).map Cell.num) ∧
    ewmMeanSpan 2 ([10, 20, 30].map Cell.num) =
      [Cell.num 10, Cell.num (50 / 3), Cell.num (230 / 9)] ∧
    (∀ df df' : Frame, calculate_cdc_action_zone df = .ok df' →
      df'.AP = some (ewmMeanSpan 2 (df'.src.getD [])) ∧
      df'.Fast_MA = some (ewmMeanSpan PRD_1 (df'.AP.getD [])) ∧
      df'.Slow_MA = some (ewmMeanSpan PRD_2 (df'.AP.getD []))) := by
  refine ⟨fun qs => ewmMean_map_num (2 / (span + 1)) qs, ?_, ?_⟩
  · rw [show ewmMeanSpan 2 ([10, 20, 30].map Cell.num) =
        ewmMean (2 / (2 + 1)) ([10, 20, 30].map Cell.num) from rfl,
      ewmMean_map_num]
    norm_num [emaSpec, emaGo]
  · intro df df' h0
    obtain ⟨o, h, l, c, _, _, _, _, hdf⟩ := calc_ok_elim h0
    subst hdf
    exact ⟨rfl, rfl, rfl⟩

/-- Witness for C3_ema_exact_recurrence at span 2. -/
theorem C3_witness :
    (0 : ℚ) < 2 ∧ ewmMeanSpan 2 ([10, 20, 30].map Cell.num) =
      [Cell.num 10, Cell.num (50 / 3), Cell.num (230 / 9)] :=
  ⟨by norm_num, (C3_ema_exact_recurrence 2 (by norm_num)).2.1⟩

/-- Claim C1 (counterexample): a single flat candle makes Fast_MA equal to
Slow_MA at the latest index, yet the reported trend is "Down Trend", not a
Neutral state — the code has only the two labels of the if/else, refuting
the claim that equality yields a distinct reachable Neutral label. -/
theorem C1_counterexample :
    lastCell ((buildFrame (frameOfKlines [flatKline]) [Cell.num 2] [Cell.num 2]
      [Cell.num 2] [Cell.num 2]).Fast_MA.getD []) =
    lastCell ((buildFrame (frameOfKlines [flatKline]) [Cell.num 2] [Cell.num 2]
      [Cell.num 2] [Cell.num 2]).Slow_MA.getD []) ∧
    calculate_cdc_action_zone (frameOfKlines [flatKline]) =
      .ok (buildFrame (frameOfKlines [flatKline]) [Cell.num 2] [Cell.num 2]
        [Cell.num 2] [Cell.num 2]) ∧
    get_symbol_status "BTCUSDT" (some [flatKline]) =
      .ok (some ⟨"BTCUSDT", "Down Trend", "No Signal", Cell.num 2⟩) ∧
    "Down Trend" ≠ "Neutral" := by
  refine ⟨rfl, rfl, ?_, by decide⟩
  norm_num [get_symbol_status, frameOfKlines, flatKline, calculate_cdc_action_zone,
    astypeFloatCol, astypeFloatCell, buildFrame, srcCol, colAdd, cellAdd, cellDiv4,
    ewmMeanSpan, ewmMean, ewmGo, ewmStep, cellIsNum, PRD_1, PRD_2, bullCol, bearCol,
    buyCol, sellCol, shift1, cellGt, cellLt, cellEqTrue, cellEqFalse, cellAnd,
    lastCell, cellAt, cellTruthy]

/-- Claim C1 (amended): the reported latest trend has exactly two labels:
"Up Trend" precisely when the latest fast_avg and slow_avg are numeric with
fast_avg > slow_avg, and "Down Trend" in every other case (fast < slow,
fast = slow, or a missing value on either side); there is no Neutral
label. -/
theorem C1_trend_two_labels (s : String) (ks : List Kline) (dfs : Frame)
    (r : SymbolResult)
    (hr : get_symbol_status s (some ks) = .ok (some r))
    (hc : calculate_cdc_action_zone (frameOfKlines ks) = .ok dfs) :
    (r.Status = "Up Trend" ∨ r.Status = "Down Trend") ∧
    (r.Status = "Up Trend" ↔ ∃ a b : ℚ,
      lastCell (dfs.Fast_MA.getD []) = .num a ∧
      lastCell (dfs.Slow_MA.getD []) = .num b ∧ b < a) := by
  obtain ⟨hne, dfs0, hc0, hr0⟩ := gss_ok_elim hr
  rw [hc0] at hc
  injection hc with hdfs
  subst hdfs
  obtain ⟨o, h, l, c, ho, hh, hl, hcc, hdf⟩ := calc_ok_elim hc0
  subst hdf
  have hstat : r.Status =
      (if cellTruthy (lastCell (bullCol (fastOf o h l c) (slowOf o h l c))) = true
       then "Up Trend" else "Down Trend") := by rw [hr0]; rfl
  constructor
  · rw [hstat]
    exact ite_eq_or_eq _ _ _
  · have hno : o.length = ks.length := by
      simpa [frameOfKlines] using astypeFloatCol_length ho
    have hnh : h.length = ks.length := by
      simpa [frameOfKlines] using astypeFloatCol_length hh
    have hnl : l.length = ks.length := by
      simpa [frameOfKlines] using astypeFloatCol_length hl
    have hnc : c.length = ks.length := by
      simpa [frameOfKlines] using astypeFloatCol_length hcc
    have hF : (fastOf o h l c).length = ks.length := fastOf_length hno hnh hnl hnc
    have hS : (slowOf o h l c).length = ks.length := slowOf_length hno hnh hnl hnc
    have hlen : (fastOf o h l c).length = (slowOf o h l c).length := hF.trans hS.symm
    have hFne : fastOf o h l c ≠ [] := by
      intro hcon
      rw [hcon] at hF
      exact hne (List.length_eq_zero.mp hF.symm)
    have hlb : lastCell (bullCol (fastOf o h l c) (slowOf o h l c)) =
        cellGt (lastCell (fastOf o h l c)) (lastCell (slowOf o h l c)) :=
      lastCell_zipWith cellGt _ _ hlen hFne
    rw [buildFrame_Fast, Option.getD_some, buildFrame_Slow, Option.getD_some,
      hstat, hlb]
    by_cases ht : cellTruthy (cellGt (lastCell (fastOf o h l c))
        (lastCell (slowOf o h l c))) = true
    · rw [if_pos ht]
      exact iff_of_true rfl ((cellGt_truthy_iff _ _).mp ht)
    · rw [if_neg ht]
      exact iff_of_false (by decide)
        (fun hex => ht ((cellGt_truthy_iff _ _).mpr hex))

/-- Witness for C1_trend_two_labels at a concrete one-candle input whose
latest fast and slow averages are missing, pinning the label to the
else-case. -/
theorem C1_witness :
    ((exNullRes "BTCUSDT").Status = "Up Trend" ∨
     (exNullRes "BTCUSDT").Status = "Down Trend") ∧
    ((exNullRes "BTCUSDT").Status = "Up Trend" ↔ ∃ a b : ℚ,
      lastCell (exDfN'.Fast_MA.getD []) = .num a ∧
      lastCell (exDfN'.Slow_MA.getD []) = .num b ∧ b < a) :=
  C1_trend_two_labels "BTCUSDT" [nullKline] exDfN' (exNullRes "BTCUSDT")
    rfl rfl

/-- Claim C6: whenever the reported latest signal is "Buy" the reported trend
is "Up Trend", and whenever it is "Sell" the trend is "Down Trend". -/
theorem C6_signal_implies_trend (s : String) (ks : List Kline) (r : SymbolResult)
    (hr : get_symbol_status s (some ks) = .ok (some r)) :
    (r.Signal = "Buy" → r.Status = "Up Trend") ∧
    (r.Signal = "Sell" → r.Status = "Down Trend") := by
  obtain ⟨hne, dfs, hc, hr0⟩ := gss_ok_elim hr
  obtain ⟨o, h, l, c, ho, hh, hl, hcc, hdf⟩ := calc_ok_elim hc
  subst hdf
  have hno : o.length = ks.length := by
    simpa [frameOfKlines] using astypeFloatCol_length ho
  have hnh : h.length = ks.length := by
    simpa [frameOfKlines] using astypeFloatCol_length hh
  have hnl : l.length = ks.length := by
    simpa [frameOfKlines] using astypeFloatCol_length hl
  have hnc : c.length = ks.length := by
    simpa [frameOfKlines] using astypeFloatCol_length hcc
  have hF : (fastOf o h l c).length = ks.length := fastOf_length hno hnh hnl hnc
  have hS : (slowOf o h l c).length = ks.length := slowOf_length hno hnh hnl hnc
  have hlen : (fastOf o h l c).length = (slowOf o h l c).length := hF.trans hS.symm
  have hFne : fastOf o h l c ≠ [] := by
    intro hcon
    rw [hcon] at hF
    exact hne (List.length_eq_zero.mp hF.symm)
  have hsig : r.Signal =
      (if cellTruthy (lastCell (buyCol (bullCol (fastOf o h l c)
          (slowOf o h l c)))) = true then "Buy"
       else if cellTruthy (lastCell (sellCol (bearCol (fastOf o h l c)
          (slowOf o h l c)))) = true then "Sell" else "No Signal") := by
    rw [hr0]; rfl
  have hstat : r.Status =
      (if cellTruthy (lastCell (bullCol (fastOf o h l c) (slowOf o h l c))) = true
       then "Up Trend" else "Down Trend") := by rw [hr0]; rfl
  have hlb : lastCell (bullCol (fastOf o h l c) (slowOf o h l c)) =
      cellGt (lastCell (fastOf o h l c)) (lastCell (slowOf o h l c)) :=
    lastCell_zipWith cellGt _ _ hlen hFne
  rw [hsig, hstat]
  constructor
  · intro hbuy
    by_cases h1 : cellTruthy (lastCell (buyCol (bullCol (fastOf o h l c)
        (slowOf o h l c)))) = true
    · have hgt : cellGt (lastCell (fastOf o h l c)) (lastCell (slowOf o h l c)) =
          .bool true := sig_last_true cellGt_isBool hlen hFne h1
      rw [hlb, hgt]
      rfl
    · rw [if_neg h1] at hbuy
      by_cases h2 : cellTruthy (lastCell (sellCol (bearCol (fastOf o h l c)
          (slowOf o h l c)))) = true
      · rw [if_pos h2] at hbuy
        exact absurd hbuy (by decide)
      · rw [if_neg h2] at hbuy
        exact absurd hbuy (by decide)
  · intro hsell
    by_cases h1 : cellTruthy (lastCell (buyCol (bullCol (fastOf o h l c)
        (slowOf o h l c)))) = true
    · rw [if_pos h1] at hsell
      exact absurd hsell (by decide)
    · rw [if_neg h1] at hsell
      by_cases h2 : cellTruthy (lastCell (sellCol (bearCol (fastOf o h l c)
          (slowOf o h l c)))) = true
      · have hlt : cellLt (lastCell (fastOf o h l c)) (lastCell (slowOf o h l c)) =
            .bool true := sig_last_true cellLt_isBool hlen hFne h2
        obtain ⟨a, b, hfa, hsb, hab⟩ := cellLt_true_elim hlt
        rw [hlb, hfa, hsb]
        have hnot : ¬(b < a) := not_lt.mpr (le_of_lt hab)
        simp [cellGt, cellTruthy, hnot]
      · rw [if_neg h2] at hsell
        exact absurd hsell (by decide)

/-- Witness for C6_signal_implies_trend at a concrete one-candle input. -/
theorem C6_witness :
    ((exNullRes "ETHUSDT").Signal = "Buy" →
      (exNullRes "ETHUSDT").Status = "Up Trend") ∧
    ((exNullRes "ETHUSDT").Signal = "Sell" →
      (exNullRes "ETHUSDT").Status = "Down Trend") :=
  C6_signal_implies_trend "ETHUSDT" [nullKline] (exNullRes "ETHUSDT") rfl
